import Mathlib

/-!
Shallow embedding of `matgendb/vv/report.py`: the report data model
(`Header`, `Table`, `ReportSection`, `Report`), the three formatters
(HTML, JSON, Markdown) and the `Emailer`, together with proofs of the
behavioural properties stated in the specification.

Modelling conventions:
* Cell values, header values and titles are Lean `String`s; Python's
  `str(v)` is the identity on them and `len(str(v))` is `String.length`.
* Python exceptions become `Except String` results.
* Python's `dict` built from a sequence of pairs is modelled as an
  association list in first-insertion order with last-value-wins on
  duplicate keys (`pyDict`).
* The SMTP transport is external to the file (the spec treats it as an
  opaque service); `Emailer.send` takes the transport outcome as an
  explicit argument.
-/

namespace Matgendb

/-- Python `dict` update step: `d[k] = v` keeps the position of an existing
key and overwrites its value, otherwise appends the pair. -/
def dictInsert (d : List (String × String)) (k v : String) : List (String × String) :=
  if d.any (fun p => p.1 = k) then
    d.map (fun p => if p.1 = k then (k, v) else p)
  else
    d ++ [(k, v)]

/-- A Python `dict` built from a list of key/value pairs (dict comprehension
`{k: v for k, v in pairs}`): last value wins on duplicate keys. -/
def pyDict (pairs : List (String × String)) : List (String × String) :=
  pairs.foldl (fun d p => dictInsert d p.1 p.2) []

/-- `Header` from `report.py`: a mutable title plus an ordered key/value
list `_kv` (duplicate keys allowed). -/
structure Header where
  title : String
  kv : List (String × String)
  deriving DecidableEq

/-- `Header.add(key, value)`: appends the pair to `_kv`. -/
def Header.add (h : Header) (key value : String) : Header :=
  { h with kv := h.kv ++ [(key, value)] }

/-- `Header.get(key)`: all values whose key matches, in insertion order. -/
def Header.get (h : Header) (key : String) : List String :=
  (h.kv.filter (fun p => p.1 = key)).map (·.2)

/-- `Header.to_dict()`: `{k: v for k, v in self._kv}`. -/
def Header.toDict (h : Header) : List (String × String) :=
  pyDict h.kv

/-- `Table` from `report.py`: `_colnames`, `_rows`, `_max_col_widths`
(`_width` is always `len(colnames)`, kept implicit as `ncol`). -/
structure Table where
  colnames : List String
  rows : List (List String)
  maxColWidths : List Nat
  deriving DecidableEq

/-- `Table(colnames)`: no rows, widths initialised to `map(len, colnames)`. -/
def mkTable (colnames : List String) : Table :=
  { colnames := colnames, rows := [], maxColWidths := colnames.map String.length }

def Table.ncol (t : Table) : Nat := t.colnames.length

def Table.nrow (t : Table) : Nat := t.rows.length

/-- The width-update loop of `Table.add`: for each column position,
`if self._max_col_widths[i] < len(str(v)): self._max_col_widths[i] = n`. -/
def updateWidths (widths : List Nat) (values : List String) : List Nat :=
  List.zipWith (fun w v => max w v.length) widths values

/-- `Table.add(values)`: raises `ValueError` when `len(values) != self._width`,
otherwise appends the row and updates the per-column max widths. -/
def Table.add (t : Table) (values : List String) : Except String Table :=
  if values.length ≠ t.ncol then
    .error ("expected " ++ toString t.ncol ++ " values, got " ++ toString values.length)
  else
    .ok { t with rows := t.rows ++ [values],
                 maxColWidths := updateWidths t.maxColWidths values }

/-- A sequence of `Table.add` calls; the whole sequence fails as soon as
one call raises. -/
def Table.addAll (t : Table) (rows : List (List String)) : Except String Table :=
  rows.foldlM Table.add t

/-- Row comparison used by `sortby`: `key=itemgetter(colnum)` compares the
`colnum`-th cells with Python string comparison, lexicographic by code
point: `a <= b` iff not `b < a` in the lexicographic strict order on the
character sequences (this is also what Mathlib's `≤` on `String` means,
via `String.le_iff_toList_le`). -/
def rowLe (colnum : Nat) (r s : List String) : Prop :=
  ¬ List.Lex (· < ·) (s.getD colnum "").data (r.getD colnum "").data

instance (colnum : Nat) : DecidableRel (rowLe colnum) :=
  fun r s =>
    inferInstanceAs
      (Decidable (¬ List.Lex (· < ·) (s.getD colnum "").data (r.getD colnum "").data))

instance (colnum : Nat) : IsTotal (List String) (rowLe colnum) :=
  ⟨fun r s => by
    by_cases h : List.Lex (· < ·) (s.getD colnum "").data (r.getD colnum "").data
    · exact Or.inr (asymm h)
    · exact Or.inl h⟩

instance (colnum : Nat) : IsTrans (List String) (rowLe colnum) :=
  ⟨fun a b c hab hbc hca =>
    (IsOrderConnected.conn (c.getD colnum "").data (b.getD colnum "").data
        (a.getD colnum "").data hca).elim (fun h => hbc h) (fun h => hab h)⟩

/-- Argument of `Table.sortby`: a column name or a zero-based index. -/
inductive ColRef where
  | name (s : String)
  | index (i : Int)
  deriving DecidableEq

/-- `Table.sortby(name_or_index)`: resolve the column (raising on an unknown
name or an out-of-range index), then `self._rows.sort(key=itemgetter(colnum))`.
Python's `list.sort` is a stable sort; it is modelled by the stable
`List.insertionSort`, which produces the same list as any stable sort. -/
def Table.sortby (t : Table) (c : ColRef) : Except String Table :=
  match c with
  | .name n =>
    match t.colnames.indexOf? n with
    | none => .error ("column " ++ n ++ " not in table")
    | some colnum => .ok { t with rows := t.rows.insertionSort (rowLe colnum) }
  | .index i =>
    if i < 0 ∨ i ≥ (t.ncol : Int) then
      .error ("index out of range 0.." ++ toString (t.ncol - 1))
    else
      .ok { t with rows := t.rows.insertionSort (rowLe i.toNat) }

/-- `Table.values`: one Python dict per row, `{colnames[i]: r[i] for i in range(width)}`. -/
def Table.values (t : Table) : List (List (String × String)) :=
  t.rows.map (fun r => pyDict (t.colnames.zip r))

/-- `ReportSection`: a header, an optional `Table` body, and child sections
(`ReportSection` inherits the `_sections` list from `Report`). -/
inductive Sect where
  | mk (header : Header) (body : Option Table) (sections : List Sect)

def Sect.header : Sect → Header
  | .mk h _ _ => h

def Sect.body : Sect → Option Table
  | .mk _ b _ => b

def Sect.sections : Sect → List Sect
  | .mk _ _ s => s

/-- `Report`: a header plus the ordered list of top-level sections. -/
structure Report where
  header : Header
  sections : List Sect

/-- `Report.add_section(section)`. -/
def Report.add_section (r : Report) (s : Sect) : Report :=
  { r with sections := r.sections ++ [s] }

mutual
/-- `Report._count_rows(sect)`: `sect.body.nrow` (when the body is present)
plus the row counts of all sub-sections. -/
def sectRows : Sect → Nat
  | .mk _ b subs =>
    (match b with | some t => t.nrow | none => 0) + sectListRows subs

def sectListRows : List Sect → Nat
  | [] => 0
  | s :: rest => sectRows s + sectListRows rest
end

mutual
/-- All tables reachable in a section subtree. -/
def sectTables : Sect → List Table
  | .mk _ b subs =>
    (match b with | some t => [t] | none => []) ++ sectListTables subs

def sectListTables : List Sect → List Table
  | [] => []
  | s :: rest => sectTables s ++ sectListTables rest
end

/-- `Report.is_empty()`: `True` when there are no sections, otherwise the
recursive row total over all sections is compared with zero. -/
def Report.is_empty (r : Report) : Bool :=
  if r.sections.length = 0 then true
  else sectListRows r.sections == 0

/-- The tables reachable from a report's sections. -/
def Report.tables (r : Report) : List Table :=
  sectListTables r.sections

/-! ### HTMLFormatter -/

/-- `HTMLFormatter(line_sep, id_column, css)`. -/
structure HTMLFormatter where
  sep : String
  idcol : Nat
  css : String

/-- Python truthiness of the `prev_key` variable: `None` and the empty
string are falsy. -/
def pyTruthy : Option String → Bool
  | none => false
  | some s => s ≠ ""

/-- The row loop of `HTMLFormatter.format`.  For each row the source does
`row = list(row)` (an independent copy; the later `row[idcol] = ''` writes
to the copy, never to the row stored in the table), reads
`key = row[idcol]`, and tests `if prev_key and key == prev_key` (Python
truthiness: `None` and `''` are falsy).  In the grouped branch the copy's
id cell is blanked and neither `prev_key` nor `i` changes; otherwise
`prev_key = key; i += 1`.  Returns, per row, the displayed row together
with the class counter `i` used for its `('even','odd')[i % 2]` class, and
also the table's row list as it stands after the loop. -/
def htmlRowLoop (idcol : Nat) :
    List (List String) → Option String → Nat →
    List (List String × Nat) × List (List String)
  | [], _, _ => ([], [])
  | row :: rest, prevKey, i =>
    let key := row.getD idcol ""
    if pyTruthy prevKey ∧ some key = prevKey then
      let res := htmlRowLoop idcol rest prevKey i
      ((row.set idcol "", i) :: res.1, row :: res.2)
    else
      let res := htmlRowLoop idcol rest (some key) (i + 1)
      ((row, i + 1) :: res.1, row :: res.2)

/-- The `<dt>`/`<dd>` metadata list emitted for a header's entries. -/
def dlLines (cls : String) (kv : List (String × String)) : List String :=
  ("<dl class=\"" ++ cls ++ "\">") ::
    (kv.map (fun p => ["<dt>" ++ p.1 ++ "</dt>", "<dd>" ++ p.2 ++ "</dd>"])).flatten ++
    ["</dl>"]

/-- The `<tr class=...>` block for one displayed row with class counter `i`. -/
def trLines (entry : List String × Nat) : List String :=
  ("<tr class=\"" ++ (if entry.2 % 2 = 0 then "even" else "odd") ++ "\">") ::
    entry.1.map (fun v => "<td>" ++ v ++ "</td>") ++ ["</tr>"]

/-- One condition sub-section: `<h3>`, metadata, then the `<table>` built by
the row loop.  `cond_section.body.column_names` raises `AttributeError`
when the body is `None`; the second component is the sub-section as it
stands afterwards. -/
def condHtml (idcol : Nat) (cs : Sect) : Except String (List String) × Sect :=
  match cs with
  | .mk h b subs =>
    match b with
    | none => (.error "AttributeError: NoneType has no attribute column_names", .mk h none subs)
    | some t =>
      let loop := htmlRowLoop idcol t.rows none 0
      let lines :=
        ("<h3>" ++ h.title ++ "</h3>") :: dlLines "subsectmeta" h.kv ++
        ["<table>", "<tr>"] ++ t.colnames.map (fun n => "<th>" ++ n ++ "</th>") ++
        ["</tr>"] ++ (loop.1.map trLines).flatten ++ ["</table>"]
      (.ok lines, .mk h (some { t with rows := loop.2 }) subs)

/-- The condition sub-sections of one section, in order; an exception
aborts the loop, leaving the remaining sub-sections untouched. -/
def condListHtml (idcol : Nat) : List Sect → Except String (List String) × List Sect
  | [] => (.ok [], [])
  | c :: rest =>
    match condHtml idcol c with
    | (.error e, c') => (.error e, c' :: rest)
    | (.ok ls, c') =>
      match condListHtml idcol rest with
      | (.error e, rest') => (.error e, c' :: rest')
      | (.ok ls2, rest') => (.ok (ls ++ ls2), c' :: rest')

/-- One top-level section: `<h2>`, metadata, then its condition sub-sections. -/
def sectHtml (idcol : Nat) (s : Sect) : Except String (List String) × Sect :=
  match s with
  | .mk h b subs =>
    let hdr := ("<h2>" ++ h.title ++ "</h2>") :: dlLines "sectmeta" h.kv
    match condListHtml idcol subs with
    | (.error e, subs') => (.error e, .mk h b subs')
    | (.ok ls, subs') => (.ok (hdr ++ ls), .mk h b subs')

/-- The top-level sections, in order. -/
def sectListHtml (idcol : Nat) : List Sect → Except String (List String) × List Sect
  | [] => (.ok [], [])
  | s :: rest =>
    match sectHtml idcol s with
    | (.error e, s') => (.error e, s' :: rest)
    | (.ok ls, s') =>
      match sectListHtml idcol rest with
      | (.error e, rest') => (.error e, s' :: rest')
      | (.ok ls2, rest') => (.ok (ls ++ ls2), s' :: rest')

/-- `HTMLFormatter.format(report)`: the document skeleton (doctype, title,
optional `<style>` block when the css string is truthy, `<h1>`, report
metadata), the rendered sections, and the joined result; paired with the
report as it stands after the call. -/
def HTMLFormatter.format (f : HTMLFormatter) (r : Report) :
    Except String String × Report :=
  let pre :=
    ["<!DOCTYPE html>", "<html>", "<title>" ++ r.header.title ++ "</title>", "<head>"] ++
    (if f.css ≠ "" then ["<style>", f.css, "</style>"] else []) ++
    ["</head>", "<body>", "<h1>" ++ r.header.title ++ "</h1>"] ++
    dlLines "rptmeta" r.header.kv
  match sectListHtml f.idcol r.sections with
  | (.error e, secs') => (.error e, { r with sections := secs' })
  | (.ok ls, secs') =>
    (.ok (String.intercalate f.sep (pre ++ ls ++ ["</body>", "</html>"])),
     { r with sections := secs' })

/-! ### JSONFormatter -/

/-- JSON values, the codomain of `json.dumps`/`json.loads` for this module
(`indent` only affects whitespace, so the embedding works at the level of
JSON values; parsing the dumped string back yields the same value). -/
inductive JVal where
  | null
  | str (s : String)
  | arr (xs : List JVal)
  | obj (fields : List (String × JVal))

/-- The `default` hook of a `json.JSONEncoder` subclass, as `json.dumps`
invokes it on the non-primitive objects in the formatter's document:
the `Header`s at `info` positions and the `Table`s at `violations`
positions. -/
structure EncoderHook where
  onHeader : Header → Except String JVal
  onTable : Table → Except String JVal

/-- Modelled from the spec: `MongoJSONEncoder` (defined in `matgendb/util.py`,
outside this file) converts domain-specific database scalar types and falls
back to an error for anything it does not recognise; it does not recognise
`Header` or `Table`, so its `default` raises for both. -/
def mongoEncoderHook : EncoderHook :=
  { onHeader := fun _ => .error "Header is not JSON serializable",
    onTable := fun _ => .error "Table is not JSON serializable" }

/-- `ReportJSONEncoder.default`: a `Header` serializes as `to_dict()`, a
`Table` as `values`; anything else is delegated to
`MongoJSONEncoder.default`. -/
def reportEncoderHook : EncoderHook :=
  { onHeader := fun h => .ok (JVal.obj (h.toDict.map (fun p => (p.1, JVal.str p.2)))),
    onTable := fun t =>
      .ok (JVal.arr (t.values.map (fun d => JVal.obj (d.map (fun p => (p.1, JVal.str p.2)))))) }

/-- A `violations` value: `cs.body` is a `Table` (sent to the hook) or
`None` (encoded natively as JSON `null`). -/
def encodeBody (hook : EncoderHook) : Option Table → Except String JVal
  | none => .ok .null
  | some t => hook.onTable t

/-- The object built by `JSONFormatter.format` and its serialization:
`{title, info: <header>, sections: [{title, info, conditions: [{title,
info, violations: <body>}]}]}`; dicts, lists and strings encode natively,
`Header`/`Table` values go through the encoder hook. -/
def encodeReport (hook : EncoderHook) (r : Report) : Except String JVal := do
  let info ← hook.onHeader r.header
  let sections ← r.sections.mapM (fun s => do
    let sinfo ← hook.onHeader s.header
    let conds ← s.sections.mapM (fun cs => do
      let cinfo ← hook.onHeader cs.header
      let viol ← encodeBody hook cs.body
      pure (JVal.obj [("title", JVal.str cs.header.title), ("info", cinfo),
                      ("violations", viol)]))
    pure (JVal.obj [("title", JVal.str s.header.title), ("info", sinfo),
                    ("conditions", JVal.arr conds)]))
  pure (JVal.obj [("title", JVal.str r.header.title), ("info", info),
                  ("sections", JVal.arr sections)])

/-- `JSONFormatter.format(report)`: `json.dumps(obj, indent=self._indent,
cls=MongoJSONEncoder)` — note the encoder class actually passed is
`MongoJSONEncoder`, not `ReportJSONEncoder`. -/
def JSONFormatter.format (r : Report) : Except String JVal :=
  encodeReport mongoEncoderHook r

/-- What `JSONFormatter.format` would produce if it passed the
`ReportJSONEncoder` defined directly below it in the source. -/
def JSONFormatter.formatWithReportEncoder (r : Report) : Except String JVal :=
  encodeReport reportEncoderHook r

/-- Object field lookup on a parsed JSON value. -/
def JVal.field : JVal → String → Option JVal
  | .obj fs, k => (fs.find? (fun p => p.1 = k)).map (·.2)
  | _, _ => none

/-- Array indexing on a parsed JSON value. -/
def JVal.item : JVal → Nat → Option JVal
  | .arr xs, n => xs.get? n
  | _, _ => none

/-- Array length of a parsed JSON value. -/
def JVal.alen : JVal → Option Nat
  | .arr xs => some xs.length
  | _ => none

/-! ### MarkdownFormatter -/

/-- `_mapdump(d)`: `', '.join('{}={}'.format(k, v) for k, v in d.iteritems())`. -/
def mapdump (d : List (String × String)) : String :=
  String.intercalate ", " (d.map (fun p => p.1 ++ "=" ++ p.2))

/-- `'{:Ns}'.format(s)`: pad `s` on the right with spaces to length `n`
(kept whole when already longer). -/
def padTo (s : String) (n : Nat) : String :=
  s ++ String.mk (List.replicate (n - s.length) ' ')

/-- `_fixed_width(values, widths)`: each value padded to its column's
tracked width plus one, concatenated (`zip` stops at the shorter list). -/
def fixedWidth (values : List String) (widths : List Nat) : String :=
  String.join (List.zipWith (fun w v => padTo v (w + 1)) widths values)

/-- `_append_heading(lines, level, title)`: `'\n{} {} {}\n'` with
`level` hashes. -/
def appendHeading (lines : List String) (level : Nat) (title : String) : List String :=
  lines ++ ["\n" ++ String.mk (List.replicate level '#') ++ " " ++ title ++ " " ++
            String.mk (List.replicate level '#') ++ "\n"]

/-- `_append_info_section(lines, info)`: the `if not info: return` guard
never fires for a `Header` instance (a Python 2 instance without
`__nonzero__`/`__len__` is always truthy); the `Info:` line is appended
only when `to_dict()` is non-empty. -/
def appendInfoSection (lines : List String) (info : Header) : List String :=
  let infodict := info.toDict
  if infodict.isEmpty then lines
  else lines ++ ["Info: " ++ mapdump infodict]

/-- `_append_violations(lines, data)`: a `Violations:` label, the
fixed-width header row, then each data row, all indented by four spaces. -/
def appendViolations (lines : List String) (data : Table) : List String :=
  lines ++ ["\nViolations:\n", "    " ++ fixedWidth data.colnames data.maxColWidths] ++
    data.rows.map (fun row => "    " ++ fixedWidth row data.maxColWidths)

/-- One condition in `MarkdownFormatter.format`: heading, info, violations
(`cond.body` of `None` raises `AttributeError` inside `_append_violations`). -/
def markdownCond (lines : List String) (cond : Sect) : Except String (List String) :=
  match cond.body with
  | none => .error "AttributeError: NoneType has no attribute column_names"
  | some t =>
    .ok (appendViolations
          (appendInfoSection (appendHeading lines 3 cond.header.title) cond.header) t)

/-- One section in `MarkdownFormatter.format`: heading, info, then its
conditions. -/
def markdownSect (lines : List String) (s : Sect) : Except String (List String) :=
  s.sections.foldlM markdownCond
    (appendInfoSection (appendHeading lines 2 s.header.title) s.header)

/-- The line list built by `MarkdownFormatter.format(report)`. -/
def markdownLines (r : Report) : Except String (List String) :=
  r.sections.foldlM markdownSect
    (appendInfoSection (appendHeading [] 1 r.header.title) r.header)

/-- `MarkdownFormatter.format(report)`: `'\n'.join(lines)`. -/
def MarkdownFormatter.format (r : Report) : Except String String :=
  (markdownLines r).map (String.intercalate "\n")

/-! ### Emailer -/

/-- `Emailer`: sender, recipients, subject, SMTP host and optional port. -/
structure Emailer where
  sender : String
  recipients : List String
  subject : String
  server : String
  port : Option Nat

/-- Python `str.split(sep)` for a one-character separator, over the
character sequence: `''.split(c) = ['']`, and each occurrence of the
separator opens a new part. -/
def pySplit (sep : Char) : List Char → List (List Char)
  | [] => [[]]
  | c :: rest =>
    if c = sep then [] :: pySplit sep rest
    else
      match pySplit sep rest with
      | [] => [[c]]
      | g :: gs => (c :: g) :: gs

/-- `Emailer.send(text, fmt)`: `main_fmt, sub_fmt = fmt.split('/')` raises
`ValueError` unless the split yields exactly two parts — this happens
before the try block, so it propagates and no SMTP connection is
attempted.  The try block wraps only connect/sendmail/quit: any failure
there is logged and swallowed, giving `n_recip = 0`; on success
`n_recip = len(self._recipients)`.  The SMTP transport is an external
service; its outcome is passed as the `smtp` argument, which the
message text does not influence. -/
def Emailer.send (e : Emailer) (_text fmt : String) (smtp : Except String Unit) :
    Except String Nat :=
  if (pySplit '/' fmt.data).length = 2 then
    match smtp with
    | .ok _ => .ok e.recipients.length
    | .error _ => .ok 0
  else
    .error "ValueError: unpack"

/-! ### Concrete inputs used in the statements below -/

/-- The per-row display information of the HTML row loop, started the way
`HTMLFormatter.format` starts it (`prev_key, i = None, 0`). -/
def htmlRows (idcol : Nat) (rows : List (List String)) : List (List String × Nat) :=
  (htmlRowLoop idcol rows none 0).1

/-- A 2-row/2-column table. -/
def exampleTable : Table :=
  { colnames := ["c1", "c2"], rows := [["v1", "v2"], ["v3", "v4"]], maxColWidths := [2, 2] }

/-- A report with header title `T` (one header entry), one section whose one
condition sub-section holds `exampleTable`. -/
def exampleReport : Report :=
  { header := { title := "T", kv := [("generated", "now")] },
    sections := [.mk { title := "S", kv := [] } none
      [.mk { title := "C", kv := [] } (some exampleTable) []]] }

/-! ## Theorems -/

/-- C3: `Table.add` raises a length-mismatch error exactly when the row's
length differs from `ncol`; on a matching length it succeeds and `nrow`
grows by one. -/
theorem c3_add_length_check (t : Table) (values : List String) :
    (values.length ≠ t.ncol → ∃ msg, t.add values = .error msg) ∧
    (values.length = t.ncol →
      ∃ t', t.add values = .ok t' ∧ t'.nrow = t.nrow + 1) := by
  constructor
  · intro h
    refine ⟨"expected " ++ toString t.ncol ++ " values, got " ++ toString values.length, ?_⟩
    simp [Table.add, h]
  · intro h
    refine ⟨Table.mk t.colnames (t.rows ++ [values]) (updateWidths t.maxColWidths values),
      ?_, ?_⟩
    · simp [Table.add, h]
    · simp [Table.nrow]

/-- Witness for C3 on a two-column table: a one-value row fails, a
two-value row succeeds and increments `nrow`. -/
theorem c3_add_length_check_witness :
    (∃ msg, (mkTable ["a", "b"]).add ["x"] = .error msg) ∧
    (∃ t', (mkTable ["a", "b"]).add ["x", "y"] = .ok t' ∧
      t'.nrow = (mkTable ["a", "b"]).nrow + 1) :=
  ⟨(c3_add_length_check (mkTable ["a", "b"]) ["x"]).1 (by decide),
   (c3_add_length_check (mkTable ["a", "b"]) ["x", "y"]).2 (by decide)⟩

theorem length_updateWidths (W : List Nat) (v : List String) :
    (updateWidths W v).length = min W.length v.length := by
  simp [updateWidths]

theorem getD_updateWidths :
    ∀ (W : List Nat) (v : List String) (i : Nat), i < W.length → i < v.length →
      (updateWidths W v).getD i 0 = max (W.getD i 0) ((v.getD i "").length)
  | [], _, _, h, _ => absurd h (by simp)
  | _ :: _, [], _, _, h => absurd h (by simp)
  | _ :: _, _ :: _, 0, _, _ => rfl
  | _ :: W, _ :: v, i + 1, h1, h2 => by
    simpa [updateWidths] using
      getD_updateWidths W v i (by simpa using h1) (by simpa using h2)

theorem add_ok_inv (t t' : Table) (values : List String)
    (h : t.add values = .ok t') :
    values.length = t.ncol ∧ t'.colnames = t.colnames ∧
      t'.rows = t.rows ++ [values] ∧
      t'.maxColWidths = updateWidths t.maxColWidths values := by
  by_cases hl : values.length = t.ncol
  · refine ⟨hl, ?_, ?_, ?_⟩ <;>
      · simp only [Table.add, hl, ne_eq, not_true_eq_false, if_false, Except.ok.injEq] at h
        simp [← h]
  · simp [Table.add, hl] at h

/-- After a run of successful `add` calls, each tracked column width is the
maximum of the width it started at and the widths of the values added in
that column. -/
theorem addAll_widths :
    ∀ (rows : List (List String)) (t t' : Table),
      (∀ r ∈ rows, r.length = t.ncol) →
      t.maxColWidths.length = t.ncol →
      t.addAll rows = .ok t' →
      t'.colnames = t.colnames ∧ t'.maxColWidths.length = t.ncol ∧
      ∀ i, i < t.ncol →
        t'.maxColWidths.getD i 0 =
          max (t.maxColWidths.getD i 0)
              ((rows.map fun r => (r.getD i "").length).foldr max 0)
  | [], t, t', _, hW, h => by
    simp only [Table.addAll, List.foldlM, pure, Except.pure, Except.ok.injEq] at h
    subst h
    exact ⟨rfl, hW, fun i _ => by simp⟩
  | r :: rows, t, t', hlen, hW, h => by
    have hr : r.length = t.ncol := hlen r (by simp)
    simp only [Table.addAll, List.foldlM] at h
    rw [Table.add, if_neg (by simp [hr])] at h
    simp only [bind, Except.bind] at h
    set t1 : Table :=
      Table.mk t.colnames (t.rows ++ [r]) (updateWidths t.maxColWidths r) with ht1
    have h1 : t1.addAll rows = .ok t' := h
    have hncol : t1.ncol = t.ncol := rfl
    have hW1 : t1.maxColWidths.length = t1.ncol := by
      simp [ht1, length_updateWidths, hW, hr, Table.ncol]
    have hlen1 : ∀ q ∈ rows, q.length = t1.ncol := by
      intro q hq
      simpa [hncol] using hlen q (by simp [hq])
    obtain ⟨hcn, hWlen, hform⟩ := addAll_widths rows t1 t' hlen1 hW1 h1
    refine ⟨hcn, hWlen, ?_⟩
    intro i hi
    rw [hform i hi]
    have : t1.maxColWidths.getD i 0 =
        max (t.maxColWidths.getD i 0) ((r.getD i "").length) := by
      simpa [ht1] using
        getD_updateWidths t.maxColWidths r i (hW ▸ hi) (hr ▸ hi)
    rw [this]
    simp [Nat.max_assoc]

/-- C4: for a table built from `mkTable cols` by a successful sequence of
`add` calls, every tracked column width equals the maximum of the column
name's length and the string lengths of that column's values in the rows
added; and a further successful `add` never decreases a width. -/
theorem c4_column_widths (cols : List String) (rows : List (List String))
    (hlen : ∀ r ∈ rows, r.length = cols.length)
    (t' : Table) (hadd : (mkTable cols).addAll rows = .ok t')
    (i : Nat) (hi : i < cols.length) :
    t'.maxColWidths.getD i 0 =
      max ((cols.getD i "").length)
          ((rows.map fun r => (r.getD i "").length).foldr max 0) ∧
    ∀ values t'', t'.add values = .ok t'' →
      t'.maxColWidths.getD i 0 ≤ t''.maxColWidths.getD i 0 := by
  have hW0 : (mkTable cols).maxColWidths.length = (mkTable cols).ncol := by
    simp [mkTable, Table.ncol]
  obtain ⟨hcn, hWlen, hform⟩ := addAll_widths rows (mkTable cols) t' hlen hW0 hadd
  constructor
  · rw [hform i hi]
    have : (mkTable cols).maxColWidths.getD i 0 = ((cols.getD i "").length) := by
      rw [mkTable]
      rw [List.getD_eq_getElem?_getD, List.getElem?_map]
      rw [List.getElem?_eq_getElem hi]
      simp [List.getD_eq_getElem?_getD, List.getElem?_eq_getElem hi]
    rw [this]
  · intro values t'' hadd2
    obtain ⟨hvl, _, _, hw⟩ := add_ok_inv t' t'' values hadd2
    have hncol' : t'.ncol = cols.length := by
      simp [Table.ncol, hcn, mkTable]
    have hiW : i < t'.maxColWidths.length := by
      rw [hWlen]
      simpa [Table.ncol, mkTable] using hi
    have hiv : i < values.length := by
      rw [hvl, hncol']
      exact hi
    rw [hw, getD_updateWidths t'.maxColWidths values i hiW hiv]
    exact Nat.le_max_left _ _

/-- Witness for C4: a table built by one `add` on `mkTable ["a", "bb"]` has
width `max 1 3 = 3` in column 0, and a further `add` does not shrink it. -/
theorem c4_column_widths_witness :
    (Table.mk ["a", "bb"] [["xyz", "z"]] [3, 2]).maxColWidths.getD 0 0 =
      max ((["a", "bb"].getD 0 "").length)
          (([["xyz", "z"]].map fun r => ((r.getD 0 "").length)).foldr max 0) ∧
    (Table.mk ["a", "bb"] [["xyz", "z"]] [3, 2]).maxColWidths.getD 0 0 ≤
      (Table.mk ["a", "bb"] [["xyz", "z"], ["q", "wwww"]] [3, 4]).maxColWidths.getD 0 0 := by
  have h := c4_column_widths ["a", "bb"] [["xyz", "z"]] (by decide)
    (Table.mk ["a", "bb"] [["xyz", "z"]] [3, 2]) (by rfl) 0 (by decide)
  exact ⟨h.1,
    h.2 ["q", "wwww"] (Table.mk ["a", "bb"] [["xyz", "z"], ["q", "wwww"]] [3, 4]) (by rfl)⟩

/-- C5: sorting on an in-range column index succeeds and reorders the rows
(a permutation of the originals) so that the column values are
non-decreasing, and sorting again returns the same table unchanged. -/
theorem c5_sortby_sorted_idempotent (t : Table) (c : Nat) (hc : c < t.ncol)
    (t' : Table) (hs : t.sortby (.index (c : Int)) = .ok t') :
    t'.rows.Perm t.rows ∧ List.Sorted (rowLe c) t'.rows ∧
      t'.sortby (.index (c : Int)) = .ok t' := by
  have hcond : ¬((c : Int) < 0 ∨ (c : Int) ≥ (t.ncol : Int)) := by
    push_neg
    constructor
    · exact Int.ofNat_nonneg c
    · exact_mod_cast hc
  rw [Table.sortby, if_neg hcond] at hs
  have ht' : t' = { t with rows := t.rows.insertionSort (rowLe (Int.toNat c)) } := by
    exact (Except.ok.injEq _ _).mp hs.symm
  have htn : (Int.toNat (c : Int)) = c := Int.toNat_natCast c
  have hsorted : List.Sorted (rowLe c) t'.rows := by
    rw [ht']
    simpa [htn] using List.sorted_insertionSort (rowLe c) t.rows
  have hperm : t'.rows.Perm t.rows := by
    rw [ht']
    exact List.perm_insertionSort (rowLe (Int.toNat (c : Int))) t.rows
  refine ⟨hperm, hsorted, ?_⟩
  have hcond' : ¬((c : Int) < 0 ∨ (c : Int) ≥ (t'.ncol : Int)) := by
    have : t'.ncol = t.ncol := by rw [ht']; rfl
    rw [this]
    exact hcond
  rw [Table.sortby, if_neg hcond']
  have : t'.rows.insertionSort (rowLe (Int.toNat (c : Int))) = t'.rows := by
    rw [htn]
    exact List.Sorted.insertionSort_eq hsorted
  rw [this]

/-- Witness for C5 on a one-column table with rows `b`, `a`: sorting gives
`a`, `b` and sorting again is the identity. -/
theorem c5_sortby_witness :
    ([["a"], ["b"]] : List (List String)).Perm [["b"], ["a"]] ∧
    List.Sorted (rowLe 0) [["a"], ["b"]] ∧
    (Table.mk ["x"] [["a"], ["b"]] [1]).sortby (.index 0) =
      .ok (Table.mk ["x"] [["a"], ["b"]] [1]) :=
  c5_sortby_sorted_idempotent (Table.mk ["x"] [["b"], ["a"]] [1]) 0 (by decide)
    (Table.mk ["x"] [["a"], ["b"]] [1]) (by rfl)

mutual
theorem sectRows_eq_sum (s : Sect) :
    sectRows s = ((sectTables s).map Table.nrow).sum := by
  cases s with
  | mk h b subs =>
    cases b with
    | none => simp [sectRows, sectTables, sectListRows_eq_sum subs]
    | some t => simp [sectRows, sectTables, sectListRows_eq_sum subs]

theorem sectListRows_eq_sum (l : List Sect) :
    sectListRows l = ((sectListTables l).map Table.nrow).sum := by
  cases l with
  | nil => simp [sectListRows, sectListTables]
  | cons s rest =>
    simp [sectListRows, sectListTables, sectRows_eq_sum s, sectListRows_eq_sum rest]
end

/-- C6: `Report.is_empty()` is true exactly when every table reachable in
the tree has zero rows (vacuously true with no sections). -/
theorem c6_is_empty_iff (r : Report) :
    r.is_empty = true ↔ ∀ t ∈ r.tables, t.nrow = 0 := by
  unfold Report.is_empty Report.tables
  by_cases h : r.sections.length = 0
  · have hnil : r.sections = [] := List.length_eq_zero.mp h
    simp [h, hnil, sectListTables]
  · simp only [h, if_false, beq_iff_eq, sectListRows_eq_sum]
    rw [List.sum_eq_zero_iff]
    simp

/-- C7: with a well-formed `"<mainType>/<subType>"` format spec, `send`
returns `0` on any transport failure (the exception is swallowed) and the
recipient count on success. -/
theorem c7_send_swallows_failure (e : Emailer) (text fmt : String)
    (hfmt : (pySplit '/' fmt.data).length = 2) :
    (∀ err, e.send text fmt (.error err) = .ok 0) ∧
    e.send text fmt (.ok ()) = .ok e.recipients.length := by
  constructor
  · intro err
    simp [Emailer.send, hfmt]
  · simp [Emailer.send, hfmt]

/-- Witness for C7: a two-recipient mailer with `"text/html"` returns `0`
when the transport fails and `2` when it succeeds. -/
theorem c7_send_swallows_failure_witness :
    (Emailer.mk "me" ["a", "b"] "s" "host" none).send "body" "text/html"
      (.error "unreachable") = .ok 0 ∧
    (Emailer.mk "me" ["a", "b"] "s" "host" none).send "body" "text/html"
      (.ok ()) = .ok 2 := by
  have h := c7_send_swallows_failure (Emailer.mk "me" ["a", "b"] "s" "host" none)
    "body" "text/html" (by decide)
  exact ⟨h.1 "unreachable", h.2⟩

/-- C9: a format spec that does not split into exactly two parts on `/`
makes `send` raise a `ValueError` whose outcome is the same whatever the
SMTP transport would have done — the failure happens before any
connection attempt, outside the swallowing try block. -/
theorem c9_send_bad_format_raises (e : Emailer) (text fmt : String)
    (hfmt : (pySplit '/' fmt.data).length ≠ 2) (smtp : Except String Unit) :
    e.send text fmt smtp = .error "ValueError: unpack" := by
  simp [Emailer.send, hfmt]

/-- Witness for C9: `"texthtml"` (no slash) raises even when the transport
would have succeeded. -/
theorem c9_send_bad_format_raises_witness :
    (Emailer.mk "me" ["a", "b"] "s" "host" none).send "body" "texthtml"
      (.ok ()) = .error "ValueError: unpack" :=
  c9_send_bad_format_raises (Emailer.mk "me" ["a", "b"] "s" "host" none)
    "body" "texthtml" (by decide) (.ok ())

/-- C8: in Markdown output a header with no entries produces no `Info:`
line at all, and a header with entries `a=1, b=2` produces exactly the
line `Info: a=1, b=2` (shown on a report with that header and no
sections, where the heading line is the only other line). -/
theorem c8_markdown_info_line (t : String) :
    markdownLines (Report.mk (Header.mk t []) []) =
      .ok ["\n# " ++ t ++ " #\n"] ∧
    markdownLines (Report.mk (Header.mk t [("a", "1"), ("b", "2")]) []) =
      .ok ["\n# " ++ t ++ " #\n", "Info: a=1, b=2"] := by
  constructor <;>
    simp [markdownLines, appendHeading, appendInfoSection, Header.toDict, pyDict,
      dictInsert, mapdump, List.foldlM, String.intercalate, String.intercalate.go,
      pure, Except.pure, String.append_assoc]

/-- One step of the HTML row loop: whatever branch is taken, the next call
continues with `prev_key = some(row[idcol])` (in the grouped branch
`prev_key` is left alone, but it already equals the current key). -/
theorem htmlRowLoop_step (idcol : Nat) (r0 : List String) (rest : List (List String))
    (prev : Option String) (i : Nat) :
    ∃ d0 i0,
      htmlRowLoop idcol (r0 :: rest) prev i =
        ((d0, i0) :: (htmlRowLoop idcol rest (some (r0.getD idcol "")) i0).1,
         r0 :: (htmlRowLoop idcol rest (some (r0.getD idcol "")) i0).2) := by
  by_cases hg : pyTruthy prev = true ∧ some (r0.getD idcol "") = prev
  · refine ⟨r0.set idcol "", i, ?_⟩
    simp only [htmlRowLoop]
    rw [if_pos hg, ← hg.2]
  · exact ⟨r0, i + 1, by simp only [htmlRowLoop]; rw [if_neg hg]⟩

/-- The displayed-row/class-counter behaviour at consecutive rows, for any
loop state: when the previous row's id is non-empty and the current row's
id equals it, the displayed id cell is blanked and the counter stays; in
every other case the row is displayed as-is and the counter advances. -/
theorem htmlRowLoop_pair (idcol : Nat) :
    ∀ (rows : List (List String)) (prev : Option String) (i n : Nat),
      n + 1 < rows.length →
      (((rows.getD n []).getD idcol "" ≠ "" ∧
        (rows.getD (n + 1) []).getD idcol "" = (rows.getD n []).getD idcol "") →
        ((htmlRowLoop idcol rows prev i).1.getD (n + 1) ([], 0)).1 =
            (rows.getD (n + 1) []).set idcol "" ∧
        ((htmlRowLoop idcol rows prev i).1.getD (n + 1) ([], 0)).2 =
            ((htmlRowLoop idcol rows prev i).1.getD n ([], 0)).2) ∧
      (¬ ((rows.getD n []).getD idcol "" ≠ "" ∧
          (rows.getD (n + 1) []).getD idcol "" = (rows.getD n []).getD idcol "") →
        ((htmlRowLoop idcol rows prev i).1.getD (n + 1) ([], 0)).1 =
            rows.getD (n + 1) [] ∧
        ((htmlRowLoop idcol rows prev i).1.getD (n + 1) ([], 0)).2 =
            ((htmlRowLoop idcol rows prev i).1.getD n ([], 0)).2 + 1)
  | [], _, _, n, hn => by simp at hn
  | [_], _, _, n, hn => by simp at hn
  | r0 :: r1 :: rest, prev, i, 0, _ => by
    obtain ⟨d0, i0, hstep⟩ := htmlRowLoop_step idcol r0 (r1 :: rest) prev i
    rw [hstep]
    by_cases hC : r0.getD idcol "" ≠ "" ∧ r1.getD idcol "" = r0.getD idcol ""
    · have hcond : pyTruthy (some (r0.getD idcol "")) = true ∧
          some (r1.getD idcol "") = some (r0.getD idcol "") :=
        ⟨by simp only [pyTruthy, decide_eq_true_eq]; exact hC.1, by rw [hC.2]⟩
      constructor
      · intro _
        simp only [htmlRowLoop]
        rw [if_pos hcond]
        simp
      · intro hC'
        exact absurd hC hC'
    · have hcond' : ¬ (pyTruthy (some (r0.getD idcol "")) = true ∧
          some (r1.getD idcol "") = some (r0.getD idcol "")) := by
        intro hcond
        have h1 : r0.getD idcol "" ≠ "" := by
          have h := hcond.1
          simpa [pyTruthy] using h
        exact hC ⟨h1, Option.some.inj hcond.2⟩
      constructor
      · intro hC'
        exact absurd hC' hC
      · intro _
        simp only [htmlRowLoop]
        rw [if_neg hcond']
        simp
  | r0 :: r1 :: rest, prev, i, n + 1, hn => by
    obtain ⟨d0, i0, hstep⟩ := htmlRowLoop_step idcol r0 (r1 :: rest) prev i
    rw [hstep]
    simp only [List.getD_cons_succ]
    exact htmlRowLoop_pair idcol (r1 :: rest) (some (r0.getD idcol "")) i0 n
      (by simpa using Nat.lt_of_succ_lt_succ hn)

/-- C2 counterexample (claim as stated is false): with identifier column
values `["", ""]` the second row's id equals the first row's id, yet the
alternating class counter advances from 1 to 2 — the source guard
`if prev_key and key == prev_key` treats the falsy id `''` as "no previous
key", so the rows are not grouped. -/
theorem c2_counterexample :
    (([[""], [""]] : List (List String)).getD 1 []).getD 0 "" =
      (([[""], [""]] : List (List String)).getD 0 []).getD 0 "" ∧
    ((htmlRows 0 [[""], [""]]).getD 1 ([], 0)).2 ≠
      ((htmlRows 0 [[""], [""]]).getD 0 ([], 0)).2 := by
  constructor
  · rfl
  · decide

/-- C2 (amended): in `HTMLFormatter.format`, when a row's identifier equals
the previous row's identifier AND that identifier is truthy (non-empty),
the displayed id cell is blanked and the even/odd class index does not
advance; otherwise (a different id, or an empty previous id) the row is
displayed unchanged and the class index advances by one. -/
theorem c2_html_grouping (idcol : Nat) (rows : List (List String)) (n : Nat)
    (hn : n + 1 < rows.length) :
    (((rows.getD n []).getD idcol "" ≠ "" ∧
      (rows.getD (n + 1) []).getD idcol "" = (rows.getD n []).getD idcol "") →
      ((htmlRows idcol rows).getD (n + 1) ([], 0)).1 =
          (rows.getD (n + 1) []).set idcol "" ∧
      ((htmlRows idcol rows).getD (n + 1) ([], 0)).2 =
          ((htmlRows idcol rows).getD n ([], 0)).2) ∧
    (¬ ((rows.getD n []).getD idcol "" ≠ "" ∧
        (rows.getD (n + 1) []).getD idcol "" = (rows.getD n []).getD idcol "") →
      ((htmlRows idcol rows).getD (n + 1) ([], 0)).1 = rows.getD (n + 1) [] ∧
      ((htmlRows idcol rows).getD (n + 1) ([], 0)).2 =
          ((htmlRows idcol rows).getD n ([], 0)).2 + 1) :=
  htmlRowLoop_pair idcol rows none 0 n hn

/-- Witness for C2 on identifier values `A, A, B`: the second `A` row is
blanked with the class index staying at 1, and the `B` row is shown with
the class index advancing to 2 — the class advances exactly twice over the
three rows. -/
theorem c2_html_grouping_witness :
    (((htmlRows 0 [["A"], ["A"], ["B"]]).getD 1 ([], 0)).1 = [""] ∧
     ((htmlRows 0 [["A"], ["A"], ["B"]]).getD 1 ([], 0)).2 =
       ((htmlRows 0 [["A"], ["A"], ["B"]]).getD 0 ([], 0)).2) ∧
    (((htmlRows 0 [["A"], ["A"], ["B"]]).getD 2 ([], 0)).1 = ["B"] ∧
     ((htmlRows 0 [["A"], ["A"], ["B"]]).getD 2 ([], 0)).2 =
       ((htmlRows 0 [["A"], ["A"], ["B"]]).getD 1 ([], 0)).2 + 1) ∧
    (htmlRows 0 [["A"], ["A"], ["B"]]).map Prod.snd = [1, 1, 2] := by
  have h1 := (c2_html_grouping 0 [["A"], ["A"], ["B"]] 0 (by decide)).1 (by decide)
  have h2 := (c2_html_grouping 0 [["A"], ["A"], ["B"]] 1 (by decide)).2 (by decide)
  exact ⟨h1, h2, by decide⟩

theorem htmlRowLoop_store (idcol : Nat) :
    ∀ (rows : List (List String)) (prev : Option String) (i : Nat),
      (htmlRowLoop idcol rows prev i).2 = rows
  | [], _, _ => rfl
  | row :: rest, prev, i => by
    simp only [htmlRowLoop]
    split
    · simp [htmlRowLoop_store idcol rest]
    · simp [htmlRowLoop_store idcol rest]

theorem condHtml_snd (idcol : Nat) (cs : Sect) : (condHtml idcol cs).2 = cs := by
  cases cs with
  | mk h b subs =>
    cases b with
    | none => rfl
    | some t =>
      have hs := htmlRowLoop_store idcol t.rows none 0
      simp [condHtml, hs]

theorem condListHtml_snd (idcol : Nat) :
    ∀ l : List Sect, (condListHtml idcol l).2 = l
  | [] => rfl
  | c :: rest => by
    rcases hx : condHtml idcol c with ⟨res, c'⟩
    have h1 : c' = c := by
      have h := condHtml_snd idcol c
      rw [hx] at h
      exact h
    rcases hy : condListHtml idcol rest with ⟨res2, rest'⟩
    have h2 : rest' = rest := by
      have h := condListHtml_snd idcol rest
      rw [hy] at h
      exact h
    cases res with
    | error e => simp [condListHtml, hx, h1]
    | ok ls =>
      cases res2 with
      | error e2 => simp [condListHtml, hx, hy, h1, h2]
      | ok ls2 => simp [condListHtml, hx, hy, h1, h2]

theorem sectHtml_snd (idcol : Nat) (s : Sect) : (sectHtml idcol s).2 = s := by
  cases s with
  | mk h b subs =>
    rcases hx : condListHtml idcol subs with ⟨res, subs'⟩
    have h2 : subs' = subs := by
      have h := condListHtml_snd idcol subs
      rw [hx] at h
      exact h
    cases res <;> simp [sectHtml, hx, h2]

theorem sectListHtml_snd (idcol : Nat) :
    ∀ l : List Sect, (sectListHtml idcol l).2 = l
  | [] => rfl
  | s :: rest => by
    rcases hx : sectHtml idcol s with ⟨res, s'⟩
    have h1 : s' = s := by
      have h := sectHtml_snd idcol s
      rw [hx] at h
      exact h
    rcases hy : sectListHtml idcol rest with ⟨res2, rest'⟩
    have h2 : rest' = rest := by
      have h := sectListHtml_snd idcol rest
      rw [hy] at h
      exact h
    cases res with
    | error e => simp [sectListHtml, hx, h1]
    | ok ls =>
      cases res2 with
      | error e2 => simp [sectListHtml, hx, hy, h1, h2]
      | ok ls2 => simp [sectListHtml, hx, hy, h1, h2]

/-- C10: `HTMLFormatter.format` leaves the report it renders unchanged —
every table row (the blanking happens on a per-row copy), every header and
the section structure are the same after the call, whether rendering
succeeds or raises on a body-less condition section. -/
theorem c10_html_format_readonly (f : HTMLFormatter) (r : Report) :
    (f.format r).2 = r := by
  rcases hx : sectListHtml f.idcol r.sections with ⟨res, secs'⟩
  have h2 : secs' = r.sections := by
    have h := sectListHtml_snd f.idcol r.sections
    rw [hx] at h
    exact h
  cases res with
  | error e => simp [HTMLFormatter.format, hx, h2]
  | ok ls => simp [HTMLFormatter.format, hx, h2]

/-- C1: `JSONFormatter.format` passes `cls=MongoJSONEncoder`, which cannot
serialize the `Header` placed at the `info` key, so formatting the example
round-trip report raises instead of returning a document; with the
`ReportJSONEncoder` defined in the source (but never used) the produced
document has `title = "T"` and `sections[0].conditions[0].violations` of
length 2, as the claim describes. -/
theorem c1_json_format_raises :
    JSONFormatter.format exampleReport = .error "Header is not JSON serializable" ∧
    ((JSONFormatter.formatWithReportEncoder exampleReport).toOption.bind
      (fun j => j.field "title")) = some (JVal.str "T") ∧
    ((JSONFormatter.formatWithReportEncoder exampleReport).toOption.bind
      (fun j => ((((j.field "sections").bind (fun s => s.item 0)).bind
        (fun s => s.field "conditions")).bind (fun c => c.item 0)).bind
        (fun c => (c.field "violations").bind JVal.alen))) = some 2 :=
  ⟨rfl, rfl, rfl⟩

end Matgendb
